import Mathlib

/-!
# Verification of the ImageJ ROI codec (`ijroi_utils.py`, `napari_ijroi_reader.py`)

A shallow embedding of the ROI encoder/decoder.  A byte stream is a
`List Nat` whose elements are byte values `0..255`; reading past the end of
the stream yields fewer bytes, exactly as Python's `file.read(k)` does, and
`struct.unpack` mismatches surface as `PyErr.streamError`.
-/

namespace IJRoi

/-! ## Byte-level primitives -/

/-- Interpret a 16-bit unsigned value as a big-endian signed short
(`struct` format `h`). -/
def toI16 (u : Nat) : Int :=
  if u < 32768 then (u : Int) else (u : Int) - 65536

/-- Interpret a 32-bit unsigned value as a big-endian signed int
(`struct` format `i`). -/
def toI32 (u : Nat) : Int :=
  if u < 2 ^ 31 then (u : Int) else (u : Int) - 2 ^ 32

/-- Byte `i` of a stream (Python reads yield the raw byte). -/
def hdrByte (s : List Nat) (i : Nat) : Nat := s.getD i 0

/-- Big-endian 16-bit field starting at byte `i`. -/
def hdrU16 (s : List Nat) (i : Nat) : Nat := hdrByte s i * 256 + hdrByte s (i + 1)

/-- Signed big-endian 16-bit field starting at byte `i`. -/
def hdrI16 (s : List Nat) (i : Nat) : Int := toI16 (hdrU16 s i)

/-- Big-endian 32-bit field starting at byte `i`. -/
def hdrU32 (s : List Nat) (i : Nat) : Nat :=
  ((hdrByte s i * 256 + hdrByte s (i + 1)) * 256 + hdrByte s (i + 2)) * 256
    + hdrByte s (i + 3)

/-- Signed big-endian 32-bit field starting at byte `i`. -/
def hdrI32 (s : List Nat) (i : Nat) : Int := toI32 (hdrU32 s i)

/-- High byte of the big-endian encoding of a signed 16-bit value
(`struct.pack '>h'`, after the range check has passed). -/
def i16hi (v : Int) : Nat := (v % 65536).toNat / 256

/-- Low byte of the big-endian encoding of a signed 16-bit value. -/
def i16lo (v : Int) : Nat := (v % 65536).toNat % 256

/-- Big-endian bytes of a signed 16-bit value. -/
def beI16 (v : Int) : List Nat := [i16hi v, i16lo v]

/-- Bytes of the big-endian encoding of a 32-bit word. -/
def u32b0 (w : Nat) : Nat := w / 2 ^ 24 % 256

def u32b1 (w : Nat) : Nat := w / 2 ^ 16 % 256

def u32b2 (w : Nat) : Nat := w / 2 ^ 8 % 256

def u32b3 (w : Nat) : Nat := w % 256

/-- Big-endian bytes of a 32-bit word. -/
def beU32 (w : Nat) : List Nat := [u32b0 w, u32b1 w, u32b2 w, u32b3 w]

/-- `struct.pack '>h'` range test: values must fit a signed short. -/
def inI16 (v : Int) : Prop := -32768 ≤ v ∧ v < 32768

instance (v : Int) : Decidable (inI16 v) := by unfold inI16; infer_instance

/-- Parse consecutive big-endian signed shorts (`struct.unpack '>Nh'`),
two bytes each. -/
def unpackI16s : List Nat → List Int
  | b0 :: b1 :: rest => toI16 (b0 * 256 + b1) :: unpackI16s rest
  | _ => []

/-- Group consecutive 4-byte big-endian words (`struct.unpack '>Nf'`
yields one binary32 word per 4 bytes). -/
def unpackF32Words : List Nat → List Nat
  | b0 :: b1 :: b2 :: b3 :: rest =>
      (((b0 * 256 + b1) * 256 + b2) * 256 + b3) :: unpackF32Words rest
  | _ => []

/-! ## IEEE-754 binary32 values

`struct.unpack '>f'` produces the exact rational value of a binary32 word
(floats that are not NaN/infinity are exact rationals).  `f32toRat` is that
interpretation; `none` stands for NaN and the infinities. -/

/-- Exact rational value of a binary32 word; `none` for NaN/infinity. -/
def f32toRat (w : Nat) : Option ℚ :=
  let s : Nat := w / 2 ^ 31 % 2
  let e : Nat := w / 2 ^ 23 % 256
  let m : Nat := w % 2 ^ 23
  if e = 255 then none
  else
    let mant : Int := if e = 0 then (m : Int) else ((2 ^ 23 + m : Nat) : Int)
    let mant : Int := if s = 1 then -mant else mant
    let ex : Int := (if e = 0 then (1 : Int) else (e : Int)) - 150
    some (if 0 ≤ ex then mkRat (mant * 2 ^ ex.toNat) 1
          else mkRat mant (2 ^ (-ex).toNat))

/-- Binary32 word of an integer (C `float` conversion, round to nearest,
ties to even), as performed by `struct.pack '>f'` on an int value. -/
def f32ofInt (v : Int) : Nat :=
  if v = 0 then 0
  else
    let s : Nat := if v < 0 then 2 ^ 31 else 0
    let a := v.natAbs
    let e := Nat.log2 a
    if e ≤ 23 then s + (e + 127) * 2 ^ 23 + (a * 2 ^ (23 - e) - 2 ^ 23)
    else
      let d := e - 23
      let m0 := a / 2 ^ d
      let r := a % 2 ^ d
      let half := 2 ^ (d - 1)
      let m := if r > half ∨ (r = half ∧ m0 % 2 = 1) then m0 + 1 else m0
      if m = 2 ^ 24 then
        if e + 128 ≥ 255 then s + 255 * 2 ^ 23
        else s + (e + 128) * 2 ^ 23
      else
        if e + 127 ≥ 255 then s + 255 * 2 ^ 23
        else s + (e + 127) * 2 ^ 23 + (m - 2 ^ 23)

/-- Round a rational to the nearest integer, ties to even. -/
def roundNE (q : ℚ) : Int :=
  let n := ⌊q⌋
  let r := q - n
  if r < 1 / 2 then n else if 1 / 2 < r then n + 1
  else if n % 2 = 0 then n else n + 1

/-- Binary32 word nearest a nonzero rational (round to nearest, ties to
even; magnitudes at or beyond `2^128` give the infinity word). -/
def roundF32 (q : ℚ) : Nat :=
  if q = 0 then 0
  else
    let s : Nat := if q < 0 then 2 ^ 31 else 0
    let a := |q|
    let e : Int := max (Int.log 2 a) (-126)
    let m := (roundNE (a * (2 : ℚ) ^ (23 - e))).toNat
    if m < 2 ^ 23 then s + m
    else if m < 2 ^ 24 then
      if e + 127 ≥ 255 then s + 255 * 2 ^ 23
      else s + (e + 127).toNat * 2 ^ 23 + (m - 2 ^ 23)
    else
      if e + 128 ≥ 255 then s + 255 * 2 ^ 23
      else s + (e + 128).toNat * 2 ^ 23

/-- Float32 in-place addition of an integer offset (`points[:, 1] += left`
on a float32 array): finite words are added exactly then rounded back to
binary32; NaN and infinity words are returned unchanged (the platform's
deterministic non-finite result, represented by the input word). -/
def f32addOff (w : Nat) (off : Int) : Nat :=
  match f32toRat w with
  | none => w
  | some q => roundF32 (q + (off : ℚ))

/-- Truncation of a rational toward zero (C float-to-int conversion). -/
def ratTrunc (q : ℚ) : Int :=
  if 0 ≤ q then ⌊q⌋ else -⌊-q⌋

/-- Result of storing a binary32 value into a NumPy int16 cell
(`points[0, :] = (y1_coord, x1_coord)` on an int16 array): finite values
whose truncation fits a signed short are truncated toward zero; any other
word gives a platform-dependent cell, represented symbolically by the
source word. -/
inductive I16OfF32 where
  | val (v : Int)
  | undef (w : Nat)
deriving DecidableEq, Repr

/-- NumPy float-to-int16 narrowing of a binary32 word. -/
def i16cast (w : Nat) : I16OfF32 :=
  match f32toRat w with
  | none => .undef w
  | some q =>
      let t := ratTrunc q
      if inI16 t then .val t else .undef w

deriving instance DecidableEq for Except

/-! ## Decoded points and Python errors -/

/-- The point data returned by `decode_roi`, keeping the NumPy dtype
distinction of the source: `ints` is an int16 array of (row, column)
values, `floats` is a float32 array given by its binary32 words,
`lineInts` is the int16 array built by narrowing the four float header
slots of a Line, and `ellipse cy cx h w` stands for the deterministic
vertex list `matplotlib.patches.Ellipse((cy, cx), h, w).get_verts()`
(an external library call fully determined by these four arguments). -/
inductive RoiPoints where
  | ints (pts : List (Int × Int))
  | floats (pts : List (Nat × Nat))
  | lineInts (y1 x1 y2 x2 : I16OfF32)
  | ellipse (cy cx h w : Int)
deriving DecidableEq, Repr

/-- The Python exception classes `decode_roi` and the readers can raise:
`streamError` is `struct.error`, `formatError` is `IOError`, and the last
three are `ValueError` instances (unsupported type, unsupported feature,
and the remaining `ValueError` sources such as negative NumPy dimensions
or an unmapped shape type). -/
inductive PyErr where
  | streamError
  | formatError
  | unsupportedType
  | unsupportedFeature
  | otherValueError
deriving DecidableEq, Repr

/-- Whether an error is a `ValueError` (the class caught by the ZIP
reader's `except ValueError`). -/
def PyErr.isValueError : PyErr → Bool
  | .unsupportedType => true
  | .unsupportedFeature => true
  | .otherValueError => true
  | _ => false

/-! ## decode_roi -/

/-- Polygon/Freeline/Freehand branch of `decode_roi`: two sequential
`file_handler.read(n_coords * 2)` calls feed `struct.unpack` with format
`'>Nf'` (needing `4*n` bytes) or `'>Nh'` (needing `2*n` bytes); a size
mismatch is a `struct.error`.  Decoded columns get `left` added and rows
get `top` added, with int16 wraparound on the int16 array and float32
rounding on the float32 array. -/
def polyBranch (subPixel : Bool) (roiType : Nat) (nC : Int) (top left : Int)
    (body : List Nat) : Except PyErr (Nat × RoiPoints) :=
  if nC < 0 then .error .otherValueError
  else if subPixel then
    if (body.take (nC.toNat * 2)).length = 4 * nC.toNat then
      if ((body.drop (nC.toNat * 2)).take (nC.toNat * 2)).length = 4 * nC.toNat then
        .ok (roiType, .floats
          (((unpackF32Words ((body.drop (nC.toNat * 2)).take (nC.toNat * 2))).map
              (fun w => f32addOff w top)).zip
           ((unpackF32Words (body.take (nC.toNat * 2))).map (fun w => f32addOff w left))))
      else .error .streamError
    else .error .streamError
  else
    if (body.take (nC.toNat * 2)).length = 2 * nC.toNat then
      if ((body.drop (nC.toNat * 2)).take (nC.toNat * 2)).length = 2 * nC.toNat then
        .ok (roiType, .ints
          (((unpackI16s ((body.drop (nC.toNat * 2)).take (nC.toNat * 2))).map
              (fun v => (v + top + 32768) % 65536 - 32768)).zip
           ((unpackI16s (body.take (nC.toNat * 2))).map
              (fun v => (v + left + 32768) % 65536 - 32768))))
      else .error .streamError
    else .error .streamError

/-- Rect branch of `decode_roi`: the four corners written into an array of
the selected dtype. -/
def rectBranch (subPixel : Bool) (top left bottom right : Int) :
    Except PyErr (Nat × RoiPoints) :=
  if subPixel then
    .ok (1, .floats [(f32ofInt top, f32ofInt left), (f32ofInt top, f32ofInt right),
                     (f32ofInt bottom, f32ofInt right), (f32ofInt bottom, f32ofInt left)])
  else
    .ok (1, .ints [(top, left), (top, right), (bottom, right), (bottom, left)])

/-- Oval branch of `decode_roi` (Python `//` is floor division). -/
def ovalBranch (top left bottom right : Int) : Except PyErr (Nat × RoiPoints) :=
  let height := bottom - top
  let width := right - left
  .ok (2, .ellipse (top + Int.fdiv height 2) (left + Int.fdiv width 2) height width)

/-- Line branch of `decode_roi`: the two endpoints `(y1, x1)` and
`(y2, x2)` from the float header slots, narrowed to the selected dtype. -/
def lineBranch (subPixel : Bool) (x1w y1w x2w y2w : Nat) :
    Except PyErr (Nat × RoiPoints) :=
  if subPixel then
    .ok (3, .floats [(y1w, x1w), (y2w, x2w)])
  else
    .ok (3, .lineInts (i16cast y1w) (i16cast x1w) (i16cast y2w) (i16cast x2w))

/-- `decode_roi`: unpack the 64-byte header (`'>4shcchhhhhffffhiiihhcchii'`,
a `struct.error` if fewer than 64 bytes are available), check the magic
bytes, the ROI type, the shape-ROI size and the subtype, then derive the
geometry per type.  The magic comparison is bytewise (equivalent to the
4-byte `bytes` comparison, since 64 bytes were just read). -/
def decode_roi (s : List Nat) : Except PyErr (Nat × RoiPoints) :=
  if s.length < 64 then .error .streamError
  else if ¬ (hdrByte s 0 = 73 ∧ hdrByte s 1 = 111 ∧ hdrByte s 2 = 117 ∧
             hdrByte s 3 = 116) then .error .formatError
  else if ¬ hdrByte s 6 < 11 then .error .unsupportedType
  else if ¬ hdrByte s 6 ∈ ([0, 1, 2, 3, 4, 7] : List Nat) then .error .unsupportedType
  else if 0 < hdrI32 s 36 then .error .unsupportedFeature
  else if ¬ hdrI16 s 48 = 0 then .error .unsupportedFeature
  else if hdrByte s 6 = 0 ∨ hdrByte s 6 = 4 ∨ hdrByte s 6 = 7 then
    polyBranch (Nat.testBit (hdrU16 s 50) 7) (hdrByte s 6) (hdrI16 s 16)
      (hdrI16 s 8) (hdrI16 s 10) (s.drop 64)
  else if hdrByte s 6 = 1 then
    rectBranch (Nat.testBit (hdrU16 s 50) 7) (hdrI16 s 8) (hdrI16 s 10)
      (hdrI16 s 12) (hdrI16 s 14)
  else if hdrByte s 6 = 2 then
    ovalBranch (hdrI16 s 8) (hdrI16 s 10) (hdrI16 s 12) (hdrI16 s 14)
  else
    lineBranch (Nat.testBit (hdrU16 s 50) 7) (hdrU32 s 18) (hdrU32 s 22)
      (hdrU32 s 26) (hdrU32 s 30)

/-! ## encode_roi -/

/-- NumPy `astype(np.int32)` wraparound on an integer input value. -/
def wrapI32 (v : Int) : Int := (v + 2 ^ 31) % 2 ^ 32 - 2 ^ 31

/-- `np.min` over a nonempty list. -/
def listMin (a : Int) (l : List Int) : Int := l.foldl min a

/-- `np.max` over a nonempty list. -/
def listMax (a : Int) (l : List Int) : Int := l.foldl max a

/-- The header fields `encode_roi` derives from its inputs before packing:
coordinate count, bounding box, the four float slots and the trailing
coordinate lists. -/
structure EncFields where
  nC : Nat
  top : Int
  left : Int
  bottom : Int
  right : Int
  x1 : Int
  y1 : Int
  x2 : Int
  y2 : Int
  xsOut : List Int
  ysOut : List Int
deriving Repr

/-- The per-type field population of `encode_roi` (`none` models the
`ValueError` of unpacking a Line that does not have exactly two points).
A type outside the dispatch lists falls through with a zero coordinate
count while the coordinate lists stay non-empty, so the later
`struct.pack` call (whose format then expects zero trailing shorts)
always fails with a `struct.error`. -/
def encFields (roiType : Nat) (ys xs : List Int) : Option EncFields :=
  if roiType = 0 ∨ roiType = 4 ∨ roiType = 7 then
    some ⟨ys.length, 0, 0, 0, 0, 0, 0, 0, 0, xs, ys⟩
  else if roiType = 1 then
    match ys, xs with
    | y0 :: yr, x0 :: xr =>
        some ⟨0, listMin y0 yr, listMin x0 xr, listMax y0 yr, listMax x0 xr,
              0, 0, 0, 0, [], []⟩
    | _, _ => none
  else if roiType = 2 then
    match ys, xs with
    | y0 :: yr, x0 :: xr =>
        some ⟨0, listMax y0 yr, listMin x0 xr, listMin y0 yr, listMax x0 xr,
              0, 0, 0, 0, [], []⟩
    | _, _ => none
  else if roiType = 3 then
    match ys, xs with
    | [yA, yB], [xA, xB] => some ⟨0, 0, 0, 0, 0, xA, yA, xB, yB, [], []⟩
    | _, _ => none
  else none

/-- The `struct.pack` call of `encode_roi` (format
`'>4shcchhhhhffffhiiihhcchii%sh'`): all `h` fields are range-checked, the
type byte must fit one byte, and the packed output is the fixed 34-byte
prefix, four binary32 slots, 30 zero metadata bytes, then the column
coordinates followed by the row coordinates as big-endian shorts.  Byte 7
is the literal `b'0'`, i.e. the byte value 48. -/
def packRoi (roiType : Nat) (f : EncFields) : Option (List Nat) :=
  if roiType < 256 ∧ f.nC < 32768 ∧ inI16 f.top ∧ inI16 f.left ∧
     inI16 f.bottom ∧ inI16 f.right ∧
     (∀ v ∈ f.xsOut, inI16 v) ∧ (∀ v ∈ f.ysOut, inI16 v) then
    some (73 :: 111 :: 117 :: 116 :: 0 :: 227 :: roiType :: 48 ::
      i16hi f.top :: i16lo f.top :: i16hi f.left :: i16lo f.left ::
      i16hi f.bottom :: i16lo f.bottom :: i16hi f.right :: i16lo f.right ::
      i16hi (f.nC : Int) :: i16lo (f.nC : Int) ::
      u32b0 (f32ofInt f.x1) :: u32b1 (f32ofInt f.x1) ::
      u32b2 (f32ofInt f.x1) :: u32b3 (f32ofInt f.x1) ::
      u32b0 (f32ofInt f.y1) :: u32b1 (f32ofInt f.y1) ::
      u32b2 (f32ofInt f.y1) :: u32b3 (f32ofInt f.y1) ::
      u32b0 (f32ofInt f.x2) :: u32b1 (f32ofInt f.x2) ::
      u32b2 (f32ofInt f.x2) :: u32b3 (f32ofInt f.x2) ::
      u32b0 (f32ofInt f.y2) :: u32b1 (f32ofInt f.y2) ::
      u32b2 (f32ofInt f.y2) :: u32b3 (f32ofInt f.y2) ::
      0 :: 0 :: 0 :: 0 :: 0 :: 0 :: 0 :: 0 :: 0 :: 0 ::
      0 :: 0 :: 0 :: 0 :: 0 :: 0 :: 0 :: 0 :: 0 :: 0 ::
      0 :: 0 :: 0 :: 0 :: 0 :: 0 :: 0 :: 0 :: 0 :: 0 ::
      ((f.xsOut.flatMap beI16) ++ (f.ysOut.flatMap beI16)))
  else none

instance (roiType : Nat) (f : EncFields) :
    Decidable (roiType < 256 ∧ f.nC < 32768 ∧ inI16 f.top ∧ inI16 f.left ∧
     inI16 f.bottom ∧ inI16 f.right ∧
     (∀ v ∈ f.xsOut, inI16 v) ∧ (∀ v ∈ f.ysOut, inI16 v)) := by
  infer_instance

/-- `encode_roi`: cast the points to int32, split rows (`points[:, 0]`)
from columns (`points[:, 1]`), populate the header fields per type, and
pack.  `none` models the Python exceptions of the encode path (empty
input, out-of-range `struct.pack 'h'` values, a type byte over 255, a
Line without exactly two points). -/
def encode_roi (roiType : Nat) (points : List (Int × Int)) : Option (List Nat) :=
  match points with
  | [] => none
  | _ :: _ =>
      let pts := points.map (fun p => (wrapI32 p.1, wrapI32 p.2))
      let ys := pts.map Prod.fst
      let xs := pts.map Prod.snd
      (encFields roiType ys xs).bind (packRoi roiType)

/-! ## The Napari readers (`napari_ijroi_reader.py`) -/

/-- The RoiType-to-shape-kind dictionary of `ijroi_read_binary`. -/
def shapeTypeOf (roiType : Nat) : Option String :=
  if roiType = 0 ∨ roiType = 1 ∨ roiType = 2 ∨ roiType = 7 then some "polygon"
  else if roiType = 3 ∨ roiType = 4 then some "path"
  else none

/-- `ijroi_read_binary`: decode a single ROI stream and map its type to a
Napari shape kind (an unmapped kind raises `ValueError`; unreachable after
`decode_roi`'s own type check). -/
def ijroi_read_binary (s : List Nat) : Except PyErr (String × RoiPoints) := do
  let (roiType, points) ← decode_roi s
  match shapeTypeOf roiType with
  | some st => .ok (st, points)
  | none => .error .otherValueError

/-- `ijroizip_reader` iterates the archive entries in order, decoding each
with `ijroi_read_binary`; `except ValueError: continue` skips an entry
whose failure is a `ValueError`, while any other exception propagates and
aborts the whole read.  The archive is modelled as the list of its entry
streams; the returned pair is the collected shape kinds and point data. -/
def ijroizip_reader : List (List Nat) → Except PyErr (List String × List RoiPoints)
  | [] => .ok ([], [])
  | e :: rest =>
      match ijroi_read_binary e with
      | .ok (st, pts) =>
          (ijroizip_reader rest).map (fun r => (st :: r.1, pts :: r.2))
      | .error err =>
          if err.isValueError then ijroizip_reader rest else .error err

/-! ## Concrete example streams -/

/-- A 64-byte header: valid magic, Polygon type, zero counts, with the
shape-ROI-size field (bytes 36–39) holding `FF FF FF FF`, i.e. the signed
value -1. -/
def exNegShape : List Nat :=
  [73, 111, 117, 116, 0, 227, 0, 48] ++ List.replicate 28 0 ++
  [255, 255, 255, 255] ++ List.replicate 24 0

/-- A 64-byte header with valid magic, Polygon type, and subtype 1
(bytes 48–49). -/
def exSubtype1 : List Nat :=
  [73, 111, 117, 116, 0, 227, 0, 48] ++ List.replicate 41 0 ++ [1] ++
  List.replicate 14 0

/-- A 64-byte header with valid magic and type byte 5 (Polyline). -/
def exType5 : List Nat := [73, 111, 117, 116, 0, 227, 5, 48] ++ List.replicate 56 0

/-- A 64-byte header with valid magic and type byte 3 (Line), all other
fields zero. -/
def exType3 : List Nat := [73, 111, 117, 116, 0, 227, 3, 48] ++ List.replicate 56 0

/-- A Polygon record with the SUB_PIXEL_RESOLUTION bit set (options 128 at
bytes 50–51), coordinate count 1, and a 4-byte trailing payload. -/
def exSubPixel : List Nat :=
  [73, 111, 117, 116, 0, 227, 0, 48, 0, 0, 0, 0, 0, 0, 0, 0, 0, 1] ++
  List.replicate 32 0 ++ [0, 128] ++ List.replicate 12 0 ++ [0, 5, 0, 7]

/-- A Line record without sub-pixel resolution whose four float slots hold
the binary32 values 2.5 (x1), -5.0 (y1), 0.5 (x2) and 23.25 (y2). -/
def exLineFloat : List Nat :=
  [73, 111, 117, 116, 0, 227, 3, 48, 0, 0, 0, 0, 0, 0, 0, 0, 0, 0,
   64, 32, 0, 0, 192, 160, 0, 0, 63, 0, 0, 0, 65, 186, 0, 0] ++
  List.replicate 30 0

/-- A Rect record with bounding box top 5, left 6, bottom 7, right 8 and
all decode-irrelevant fields zero. -/
def exRectA : List Nat :=
  [73, 111, 117, 116, 0, 227, 1, 48, 0, 5, 0, 6, 0, 7, 0, 8] ++
  List.replicate 48 0

/-- The same Rect record as `exRectA` except for the version (bytes 4–5),
byte 7, stroke width (34–35), stroke color (40–43), fill color (44–47),
arrow style (52), arrow head size (53), rounded-rect arc size (54–55),
position (56–59) and header2 offset (60–63) fields. -/
def exRectB : List Nat :=
  [73, 111, 117, 116, 9, 9, 1, 9, 0, 5, 0, 6, 0, 7, 0, 8] ++
  List.replicate 18 0 ++ [1, 2] ++ [0, 0, 0, 0] ++ [3, 4, 5, 6, 7, 8, 9, 1] ++
  [0, 0, 0, 0] ++ List.replicate 12 2

/-- An encoded Polygon record with two points at the origin (coordinate
count 2, 8 payload bytes). -/
def exPolyStream : List Nat :=
  [73, 111, 117, 116, 0, 227, 0, 48, 0, 0, 0, 0, 0, 0, 0, 0, 0, 2] ++
  List.replicate 46 0 ++ List.replicate 8 0

/-- The stream `encode_roi` produces for the Rect example
`[[0,0],[0,10],[10,10],[10,0]]`. -/
def exRectStream : List Nat :=
  [73, 111, 117, 116, 0, 227, 1, 48, 0, 0, 0, 0, 0, 10, 0, 10, 0, 0] ++
  List.replicate 46 0

/-- The byte offsets of the header fields that are unpacked but never used
by `decode_roi`: version, reserved byte 7, stroke width, stroke color,
fill color, arrow style, arrow head size, rounded-rect arc size, position,
header2 offset. -/
def ignoredOffsets : List Nat :=
  [4, 5, 7, 34, 35, 40, 41, 42, 43, 44, 45, 46, 47, 52, 53, 54, 55,
   56, 57, 58, 59, 60, 61, 62, 63]

/-! ## Toolkit lemmas -/

theorem toI16_emod (v : Int) (h : inI16 v) : toI16 ((v % 65536).toNat) = v := by
  unfold toI16 inI16 at *
  split <;> omega

theorem toI16_hi_lo (v : Int) (h : inI16 v) :
    toI16 (i16hi v * 256 + i16lo v) = v := by
  unfold i16hi i16lo
  rw [show (v % 65536).toNat / 256 * 256 + (v % 65536).toNat % 256 =
      (v % 65536).toNat by omega]
  exact toI16_emod v h

theorem unpackI16s_flatMap (l : List Int) (h : ∀ v ∈ l, inI16 v) :
    unpackI16s (l.flatMap beI16) = l := by
  induction l with
  | nil => rfl
  | cons a t ih =>
      have ha : inI16 a := h a (by simp)
      show unpackI16s (beI16 a ++ t.flatMap beI16) = a :: t
      rw [show unpackI16s (beI16 a ++ t.flatMap beI16) =
          toI16 (i16hi a * 256 + i16lo a) :: unpackI16s (t.flatMap beI16) from rfl]
      rw [toI16_hi_lo a ha, ih (fun v hv => h v (by simp [hv]))]

theorem flatMap_beI16_length (l : List Int) : (l.flatMap beI16).length = 2 * l.length := by
  induction l with
  | nil => rfl
  | cons a t ih =>
      show ((beI16 a) ++ t.flatMap beI16).length = 2 * (t.length + 1)
      rw [List.length_append, ih]
      show 2 + 2 * t.length = 2 * (t.length + 1)
      omega

theorem wrapI32_eq (v : Int) (h : inI16 v) : wrapI32 v = v := by
  unfold wrapI32 inI16 at *
  omega

theorem map_wrap_id (l : List (Int × Int)) (h : ∀ p ∈ l, inI16 p.1 ∧ inI16 p.2) :
    l.map (fun p => (wrapI32 p.1, wrapI32 p.2)) = l := by
  induction l with
  | nil => rfl
  | cons a t ih =>
      have ha := h a (by simp)
      simp only [List.map_cons, ih (fun p hp => h p (by simp [hp]))]
      rw [wrapI32_eq a.1 ha.1, wrapI32_eq a.2 ha.2]

theorem take4_magic (s : List Nat) (h : s.take 4 = [73, 111, 117, 116]) :
    hdrByte s 0 = 73 ∧ hdrByte s 1 = 111 ∧ hdrByte s 2 = 117 ∧ hdrByte s 3 = 116 := by
  rcases s with _ | ⟨a, _ | ⟨b, _ | ⟨c, _ | ⟨d, t⟩⟩⟩⟩ <;> simp_all [hdrByte, List.take]

theorem take4_ne (s : List Nat) (hlen : 4 ≤ s.length) (h : s.take 4 ≠ [73, 111, 117, 116]) :
    ¬ (hdrByte s 0 = 73 ∧ hdrByte s 1 = 111 ∧ hdrByte s 2 = 117 ∧ hdrByte s 3 = 116) := by
  rcases s with _ | ⟨a, _ | ⟨b, _ | ⟨c, _ | ⟨d, t⟩⟩⟩⟩ <;> simp_all [hdrByte, List.take]

theorem polyBranch_error_kinds (sp : Bool) (rt : Nat) (nC top left : Int)
    (body : List Nat) (e : PyErr) (h : polyBranch sp rt nC top left body = .error e) :
    e = .streamError ∨ e = .otherValueError := by
  unfold polyBranch at h
  split at h
  · right
    simp_all
  · split at h <;> split at h <;> try split at h
    all_goals simp_all

theorem rectBranch_no_error (sp : Bool) (a b c d : Int) (e : PyErr) :
    rectBranch sp a b c d ≠ .error e := by
  unfold rectBranch
  split <;> simp

theorem ovalBranch_no_error (a b c d : Int) (e : PyErr) :
    ovalBranch a b c d ≠ .error e := by
  unfold ovalBranch
  simp

theorem lineBranch_no_error (sp : Bool) (a b c d : Nat) (e : PyErr) :
    lineBranch sp a b c d ≠ .error e := by
  unfold lineBranch
  split <;> simp

theorem listMin_inI16 (a : Int) (l : List Int) (ha : inI16 a)
    (h : ∀ v ∈ l, inI16 v) : inI16 (listMin a l) := by
  induction l generalizing a with
  | nil => exact ha
  | cons b t ih =>
      show inI16 (listMin (min a b) t)
      exact ih (min a b)
        (by have hb := h b (by simp); unfold inI16 at *; omega)
        (fun v hv => h v (by simp [hv]))

theorem listMax_inI16 (a : Int) (l : List Int) (ha : inI16 a)
    (h : ∀ v ∈ l, inI16 v) : inI16 (listMax a l) := by
  induction l generalizing a with
  | nil => exact ha
  | cons b t ih =>
      show inI16 (listMax (max a b) t)
      exact ih (max a b)
        (by have hb := h b (by simp); unfold inI16 at *; omega)
        (fun v hv => h v (by simp [hv]))

theorem map_wrap_add_zero (l : List Int) (h : ∀ v ∈ l, inI16 v) :
    l.map (fun v => (v + 0 + 32768) % 65536 - 32768) = l := by
  induction l with
  | nil => rfl
  | cons a t ih =>
      have ha := h a (by simp)
      simp only [List.map_cons, ih (fun v hv => h v (by simp [hv]))]
      unfold inI16 at ha
      congr 1
      omega

/-- Parsing the coordinate payload written by the encoder: `n` columns then
`n` rows as big-endian shorts come back unchanged when the count and the
offsets are zero-based. -/
theorem polyBranch_parse (rt : Nat) (xs ys : List Int)
    (hlen : xs.length = ys.length)
    (hxr : ∀ v ∈ xs, inI16 v) (hyr : ∀ v ∈ ys, inI16 v) :
    polyBranch false rt (ys.length : Int) 0 0
      (xs.flatMap beI16 ++ ys.flatMap beI16) =
      .ok (rt, .ints (ys.zip xs)) := by
  have hxb : (xs.flatMap beI16).length = ys.length * 2 := by
    rw [flatMap_beI16_length, hlen]; omega
  have hyb : (ys.flatMap beI16).length = ys.length * 2 := by
    rw [flatMap_beI16_length]; omega
  have htn : ((ys.length : Int)).toNat = ys.length := by omega
  unfold polyBranch
  rw [if_neg (by omega), if_neg (by simp), htn,
      List.take_left' hxb, List.drop_left' hxb]
  rw [show (ys.flatMap beI16).take (ys.length * 2) = ys.flatMap beI16 by
        rw [← hyb, List.take_length]]
  rw [if_pos (by omega), if_pos (by omega)]
  rw [unpackI16s_flatMap xs hxr, unpackI16s_flatMap ys hyr,
      map_wrap_add_zero xs hxr, map_wrap_add_zero ys hyr]

theorem toI16_split (v : Int) (h : inI16 v) :
    toI16 ((v % 65536).toNat / 256 * 256 + (v % 65536).toNat % 256) = v := by
  rw [show (v % 65536).toNat / 256 * 256 + (v % 65536).toNat % 256 =
      (v % 65536).toNat by omega]
  exact toI16_emod v h

/-- Decoding a stream whose header fields describe a Polygon/Freeline/
Freehand record without sub-pixel resolution, zero offsets, and whose
body is the encoder's column block followed by the row block. -/
theorem decode_poly_of_fields (s : List Nat) (t : Nat)
    (ht : t = 0 ∨ t = 4 ∨ t = 7) (xs ys : List Int)
    (hlen : ¬ s.length < 64)
    (h0 : hdrByte s 0 = 73) (h1 : hdrByte s 1 = 111)
    (h2 : hdrByte s 2 = 117) (h3 : hdrByte s 3 = 116)
    (h6 : hdrByte s 6 = t)
    (h8 : hdrI16 s 8 = 0) (h10 : hdrI16 s 10 = 0)
    (h16 : hdrI16 s 16 = (ys.length : Int))
    (h36 : hdrI32 s 36 = 0) (h48 : hdrI16 s 48 = 0)
    (h50 : Nat.testBit (hdrU16 s 50) 7 = false)
    (hdrop : s.drop 64 = xs.flatMap beI16 ++ ys.flatMap beI16)
    (hxy : xs.length = ys.length)
    (hxr : ∀ v ∈ xs, inI16 v) (hyr : ∀ v ∈ ys, inI16 v) :
    decode_roi s = .ok (t, .ints (ys.zip xs)) := by
  unfold decode_roi
  rw [if_neg hlen, if_neg (not_not_intro ⟨h0, h1, h2, h3⟩),
      if_neg (not_not_intro (show hdrByte s 6 < 11 by
        rw [h6]; rcases ht with rfl | rfl | rfl <;> decide)),
      if_neg (not_not_intro (show hdrByte s 6 ∈ ([0, 1, 2, 3, 4, 7] : List Nat) by
        rw [h6]; rcases ht with rfl | rfl | rfl <;> decide)),
      if_neg (show ¬ (0 : Int) < hdrI32 s 36 by rw [h36]; decide),
      if_neg (not_not_intro h48),
      if_pos (show hdrByte s 6 = 0 ∨ hdrByte s 6 = 4 ∨ hdrByte s 6 = 7 by
        rw [h6]; exact ht),
      h50, h6, h16, h8, h10, hdrop, polyBranch_parse t xs ys hxy hxr hyr]

/-- Decoding a stream whose header fields describe a Rect record without
sub-pixel resolution. -/
theorem decode_rect_of_fields (s : List Nat) (tp lf bt rt : Int)
    (hlen : ¬ s.length < 64)
    (h0 : hdrByte s 0 = 73) (h1 : hdrByte s 1 = 111)
    (h2 : hdrByte s 2 = 117) (h3 : hdrByte s 3 = 116)
    (h6 : hdrByte s 6 = 1)
    (h8 : hdrI16 s 8 = tp) (h10 : hdrI16 s 10 = lf)
    (h12 : hdrI16 s 12 = bt) (h14 : hdrI16 s 14 = rt)
    (h36 : hdrI32 s 36 = 0) (h48 : hdrI16 s 48 = 0)
    (h50 : Nat.testBit (hdrU16 s 50) 7 = false) :
    decode_roi s = .ok (1, .ints [(tp, lf), (tp, rt), (bt, rt), (bt, lf)]) := by
  unfold decode_roi
  rw [if_neg hlen, if_neg (not_not_intro ⟨h0, h1, h2, h3⟩),
      if_neg (not_not_intro (show hdrByte s 6 < 11 by rw [h6]; decide)),
      if_neg (not_not_intro (show hdrByte s 6 ∈ ([0, 1, 2, 3, 4, 7] : List Nat) by
        rw [h6]; decide)),
      if_neg (show ¬ (0 : Int) < hdrI32 s 36 by rw [h36]; decide),
      if_neg (not_not_intro h48),
      if_neg (show ¬ (hdrByte s 6 = 0 ∨ hdrByte s 6 = 4 ∨ hdrByte s 6 = 7) by
        rw [h6]; decide),
      if_pos h6, h50, h8, h10, h12, h14]
  unfold rectBranch
  rw [if_neg (by simp)]

/-! ## Claims -/

/-- **C3**: for every input stream of at least 64 bytes whose first 4 bytes
are not the ASCII literal `"Iout"`, `decode_roi` raises a FormatError
(`IOError`), regardless of all subsequent bytes. -/
theorem C3_bad_magic_format_error (s : List Nat) (hlen : 64 ≤ s.length)
    (hmagic : s.take 4 ≠ [73, 111, 117, 116]) :
    decode_roi s = .error .formatError := by
  unfold decode_roi
  rw [if_neg (by omega), if_pos (take4_ne s (by omega) hmagic)]

/-- Witness for C3 at a concrete all-zero 64-byte stream. -/
theorem C3_bad_magic_format_error_witness :
    decode_roi (List.replicate 64 0) = .error .formatError :=
  C3_bad_magic_format_error (List.replicate 64 0) (by decide) (by decide)

/-- **C4**: for every 64-byte header with valid magic, a roi_type byte in
{5, 6, 8, 9, 10} or outside 0–10 makes `decode_roi` raise an
UnsupportedTypeError (`ValueError`), while for roi_type in
{0, 1, 2, 3, 4, 7} no UnsupportedTypeError is raised. -/
theorem C4_type_gate (s : List Nat) (hlen : 64 ≤ s.length)
    (hmagic : s.take 4 = [73, 111, 117, 116]) :
    ((hdrByte s 6 ∈ ([5, 6, 8, 9, 10] : List Nat) ∨ 11 ≤ hdrByte s 6) →
      decode_roi s = .error .unsupportedType) ∧
    (hdrByte s 6 ∈ ([0, 1, 2, 3, 4, 7] : List Nat) →
      decode_roi s ≠ .error .unsupportedType) := by
  obtain ⟨h0, h1, h2, h3⟩ := take4_magic s hmagic
  constructor
  · intro hb
    unfold decode_roi
    rw [if_neg (by omega), if_neg (not_not_intro ⟨h0, h1, h2, h3⟩)]
    rcases hb with hb | hb
    · simp only [List.mem_cons, List.not_mem_nil, or_false] at hb
      rw [if_neg (not_not_intro (by omega : hdrByte s 6 < 11)),
          if_pos (show ¬ hdrByte s 6 ∈ ([0, 1, 2, 3, 4, 7] : List Nat) by
            simp only [List.mem_cons, List.not_mem_nil, or_false]; omega)]
    · rw [if_pos (by omega : ¬ hdrByte s 6 < 11)]
  · intro hb hdec
    simp only [List.mem_cons, List.not_mem_nil, or_false] at hb
    unfold decode_roi at hdec
    rw [if_neg (by omega), if_neg (not_not_intro ⟨h0, h1, h2, h3⟩),
        if_neg (not_not_intro (by omega : hdrByte s 6 < 11)),
        if_neg (not_not_intro (show hdrByte s 6 ∈ ([0, 1, 2, 3, 4, 7] : List Nat) by
          simp only [List.mem_cons, List.not_mem_nil, or_false]; omega))] at hdec
    split at hdec
    · exact PyErr.noConfusion (Except.error.inj hdec)
    · split at hdec
      · exact PyErr.noConfusion (Except.error.inj hdec)
      · split at hdec
        · rcases polyBranch_error_kinds _ _ _ _ _ _ _ hdec with h' | h' <;>
            exact PyErr.noConfusion h'
        · split at hdec
          · exact rectBranch_no_error _ _ _ _ _ _ hdec
          · split at hdec
            · exact ovalBranch_no_error _ _ _ _ _ hdec
            · exact lineBranch_no_error _ _ _ _ _ _ hdec

/-- Witness for C4: type byte 5 is rejected with an UnsupportedTypeError,
type byte 3 is not. -/
theorem C4_type_gate_witness :
    decode_roi exType5 = .error .unsupportedType ∧
    decode_roi exType3 ≠ .error .unsupportedType :=
  ⟨(C4_type_gate exType5 (by decide) (by decide)).1 (Or.inl (by decide)),
   (C4_type_gate exType3 (by decide) (by decide)).2 (by decide)⟩

/-- **C5 (amended)**: with valid magic and a supported roi_type,
`decode_roi` raises an UnsupportedFeatureError iff the 32-bit
shape-ROI-size field is *positive* or the 16-bit subtype field is nonzero.
(The claim's "nonzero" is wrong for negative shape-ROI-size values: the
source tests `shape_roi_size > 0`, so negative values pass.) -/
theorem C5_feature_gate (s : List Nat) (hlen : 64 ≤ s.length)
    (hmagic : s.take 4 = [73, 111, 117, 116])
    (htype : hdrByte s 6 ∈ ([0, 1, 2, 3, 4, 7] : List Nat)) :
    decode_roi s = .error .unsupportedFeature ↔
      (0 < hdrI32 s 36 ∨ hdrI16 s 48 ≠ 0) := by
  obtain ⟨h0, h1, h2, h3⟩ := take4_magic s hmagic
  simp only [List.mem_cons, List.not_mem_nil, or_false] at htype
  unfold decode_roi
  rw [if_neg (by omega), if_neg (not_not_intro ⟨h0, h1, h2, h3⟩),
      if_neg (not_not_intro (by omega : hdrByte s 6 < 11)),
      if_neg (not_not_intro (show hdrByte s 6 ∈ ([0, 1, 2, 3, 4, 7] : List Nat) by
        simp only [List.mem_cons, List.not_mem_nil, or_false]; omega))]
  constructor
  · intro h
    by_contra hc
    rw [not_or] at hc
    rw [if_neg hc.1, if_neg (not_not_intro (not_not.mp hc.2))] at h
    split at h
    · rcases polyBranch_error_kinds _ _ _ _ _ _ _ h with h' | h' <;>
        exact PyErr.noConfusion h'
    · split at h
      · exact rectBranch_no_error _ _ _ _ _ _ h
      · split at h
        · exact ovalBranch_no_error _ _ _ _ _ h
        · exact lineBranch_no_error _ _ _ _ _ _ h
  · intro h
    by_cases hs : 0 < hdrI32 s 36
    · rw [if_pos hs]
    · rw [if_neg hs, if_pos (h.resolve_left hs)]

/-- Witness for the amended C5: a nonzero subtype is rejected with an
UnsupportedFeatureError. -/
theorem C5_feature_gate_witness :
    decode_roi exSubtype1 = .error .unsupportedFeature :=
  (C5_feature_gate exSubtype1 (by decide) (by decide) (by decide)).mpr
    (Or.inr (by decide))

/-- **C5 counterexample**: a header whose shape-ROI-size field holds the
nonzero (negative) value -1 and whose subtype is zero decodes
successfully, so "UnsupportedFeatureError iff shape-ROI-size nonzero or
subtype nonzero" is false: the code only rejects positive values. -/
theorem C5_counterexample :
    hdrI32 exNegShape 36 = -1 ∧ hdrI16 exNegShape 48 = 0 ∧
    decode_roi exNegShape = .ok (0, .ints []) := by decide

/-- **C8 (amended)**: the archive reader's `except ValueError` catches
UnsupportedTypeError and UnsupportedFeatureError (both `ValueError`) and
continues with the next entry, but a StreamError (`struct.error`) or
FormatError (`IOError`) from any entry is not caught and aborts the whole
archive read. -/
theorem C8_zip_error_policy (e : List Nat) (entries : List (List Nat)) (err : PyErr)
    (hfail : ijroi_read_binary e = .error err) :
    (err.isValueError = true →
      ijroizip_reader (e :: entries) = ijroizip_reader entries) ∧
    (err.isValueError = false →
      ijroizip_reader (e :: entries) = .error err) := by
  refine ⟨fun hv => ?_, fun hv => ?_⟩ <;>
    simp only [ijroizip_reader, hfail, hv] <;> simp

/-- Witness for the amended C8: an empty entry fails with a StreamError,
which is not a `ValueError`, and the whole archive read aborts. -/
theorem C8_zip_error_policy_witness :
    ijroizip_reader [[]] = .error .streamError :=
  (C8_zip_error_policy [] [] .streamError (by decide)).2 rfl

/-- **C8 counterexample**: the claim says a StreamError raised by one
entry is caught and the other entries still contribute; in the code
`except ValueError` does not catch `struct.error`, so an archive with a
truncated (empty) first entry and a perfectly valid second entry yields an
aborted read instead of the second entry's shapes. -/
theorem C8_counterexample :
    ijroi_read_binary exPolyStream = .ok ("polygon", .ints [(0, 0), (0, 0)]) ∧
    ijroizip_reader [[], exPolyStream] = .error .streamError := by decide

/-- **C9**: two streams that agree on every header byte outside the
version, reserved byte 7, stroke width, stroke color, fill color, arrow
style, arrow head size, rounded-rect arc size, position and header2-offset
fields, and that have identical trailing payloads, decode identically:
those fields have no influence on the result (whether a value or an
error, so in particular for two headers that both pass validation). -/
theorem C9_unused_fields_no_influence (s1 s2 : List Nat)
    (hlen : s1.length = s2.length) (hdrop : s1.drop 64 = s2.drop 64)
    (hagree : ∀ i, i < 64 → i ∉ ignoredOffsets → s1.getD i 0 = s2.getD i 0) :
    decode_roi s1 = decode_roi s2 := by
  unfold decode_roi
  simp only [hdrI16, hdrU16, hdrI32, hdrU32, hdrByte, hlen, hdrop,
    hagree 0 (by decide) (by decide), hagree 1 (by decide) (by decide),
    hagree 2 (by decide) (by decide), hagree 3 (by decide) (by decide),
    hagree 6 (by decide) (by decide), hagree 8 (by decide) (by decide),
    hagree 9 (by decide) (by decide), hagree 10 (by decide) (by decide),
    hagree 11 (by decide) (by decide), hagree 12 (by decide) (by decide),
    hagree 13 (by decide) (by decide), hagree 14 (by decide) (by decide),
    hagree 15 (by decide) (by decide), hagree 16 (by decide) (by decide),
    hagree 17 (by decide) (by decide), hagree 18 (by decide) (by decide),
    hagree 19 (by decide) (by decide), hagree 20 (by decide) (by decide),
    hagree 21 (by decide) (by decide), hagree 22 (by decide) (by decide),
    hagree 23 (by decide) (by decide), hagree 24 (by decide) (by decide),
    hagree 25 (by decide) (by decide), hagree 26 (by decide) (by decide),
    hagree 27 (by decide) (by decide), hagree 28 (by decide) (by decide),
    hagree 29 (by decide) (by decide), hagree 30 (by decide) (by decide),
    hagree 31 (by decide) (by decide), hagree 32 (by decide) (by decide),
    hagree 33 (by decide) (by decide), hagree 36 (by decide) (by decide),
    hagree 37 (by decide) (by decide), hagree 38 (by decide) (by decide),
    hagree 39 (by decide) (by decide), hagree 48 (by decide) (by decide),
    hagree 49 (by decide) (by decide), hagree 50 (by decide) (by decide),
    hagree 51 (by decide) (by decide)]

/-- Witness for C9: two Rect headers differing exactly in the ignored
fields decode to the same four corners. -/
theorem C9_unused_fields_no_influence_witness :
    decode_roi exRectA = decode_roi exRectB ∧
    decode_roi exRectA = .ok (1, .ints [(5, 6), (5, 8), (7, 8), (7, 6)]) :=
  ⟨C9_unused_fields_no_influence exRectA exRectB (by decide) (by decide)
     (by decide), by decide⟩

/-- **C1** (the code is wrong here): for a well-formed coordinate-bearing
header (Polygon/Freeline/Freehand) with the SUB_PIXEL_RESOLUTION bit set
and a positive coordinate count, `decode_roi` *never* returns points: it
reads only `n_coords * 2` bytes but unpacks them with a float format that
needs `n_coords * 4` bytes, so `struct.unpack` always raises
`struct.error`, for every payload.  This contradicts the function's own
documentation ("This function only supports the SUB_PIXEL_RESOLUTION
option") and the claim's float path. -/
theorem C1_subpixel_decode_fails (s : List Nat) (hlen : 64 ≤ s.length)
    (hmagic : s.take 4 = [73, 111, 117, 116])
    (htype : hdrByte s 6 = 0 ∨ hdrByte s 6 = 4 ∨ hdrByte s 6 = 7)
    (hshape : ¬ 0 < hdrI32 s 36) (hsubt : hdrI16 s 48 = 0)
    (hopt : Nat.testBit (hdrU16 s 50) 7 = true)
    (hn : 0 < hdrI16 s 16) :
    decode_roi s = .error .streamError := by
  obtain ⟨h0, h1, h2, h3⟩ := take4_magic s hmagic
  unfold decode_roi
  rw [if_neg (by omega), if_neg (not_not_intro ⟨h0, h1, h2, h3⟩),
      if_neg (not_not_intro (by rcases htype with h | h | h <;> omega)),
      if_neg (not_not_intro (show hdrByte s 6 ∈ ([0, 1, 2, 3, 4, 7] : List Nat) by
        rcases htype with h | h | h <;> simp [h])),
      if_neg hshape, if_neg (not_not_intro hsubt), if_pos htype, hopt]
  unfold polyBranch
  rw [if_neg (by omega : ¬ hdrI16 s 16 < 0), if_pos rfl,
      if_neg (by rw [List.length_take]; omega)]

/-- Witness for C1: a concrete sub-pixel Polygon record with one
coordinate pair fails with a StreamError. -/
theorem C1_subpixel_decode_fails_witness :
    decode_roi exSubPixel = .error .streamError :=
  C1_subpixel_decode_fails exSubPixel (by decide) (by decide)
    (Or.inl (by decide)) (by decide) (by decide) (by decide) (by decide)

/-- **C10**: a valid Line record with the SUB_PIXEL_RESOLUTION bit clear
stores the two endpoints into an int16 array, so the four binary32 header
slots (read at bytes 18–33) are narrowed: each finite endpoint value whose
truncation fits a signed short comes back truncated toward zero. -/
theorem C10_line_endpoints_truncated (s : List Nat) (hlen : 64 ≤ s.length)
    (hmagic : s.take 4 = [73, 111, 117, 116]) (htype : hdrByte s 6 = 3)
    (hshape : ¬ 0 < hdrI32 s 36) (hsubt : hdrI16 s 48 = 0)
    (hopt : Nat.testBit (hdrU16 s 50) 7 = false)
    (qx1 qy1 qx2 qy2 : ℚ)
    (hx1 : f32toRat (hdrU32 s 18) = some qx1)
    (hy1 : f32toRat (hdrU32 s 22) = some qy1)
    (hx2 : f32toRat (hdrU32 s 26) = some qx2)
    (hy2 : f32toRat (hdrU32 s 30) = some qy2)
    (hr1 : inI16 (ratTrunc qy1)) (hr2 : inI16 (ratTrunc qx1))
    (hr3 : inI16 (ratTrunc qy2)) (hr4 : inI16 (ratTrunc qx2)) :
    decode_roi s = .ok (3, .lineInts (.val (ratTrunc qy1)) (.val (ratTrunc qx1))
      (.val (ratTrunc qy2)) (.val (ratTrunc qx2))) := by
  obtain ⟨h0, h1, h2, h3⟩ := take4_magic s hmagic
  unfold decode_roi
  rw [if_neg (by omega), if_neg (not_not_intro ⟨h0, h1, h2, h3⟩),
      if_neg (not_not_intro (by omega : hdrByte s 6 < 11)),
      if_neg (not_not_intro (show hdrByte s 6 ∈ ([0, 1, 2, 3, 4, 7] : List Nat) by
        simp [htype])),
      if_neg hshape, if_neg (not_not_intro hsubt),
      if_neg (by simp [htype]), if_neg (by simp [htype]), if_neg (by simp [htype]),
      hopt]
  unfold lineBranch
  rw [if_neg (by simp)]
  unfold i16cast
  rw [hx1, hy1, hx2, hy2]
  simp [hr1, hr2, hr3, hr4]

/-- Witness for C10: the Line record whose endpoint slots hold 2.5, -5.0,
0.5 and 23.25 decodes to the truncated int16 endpoints. -/
theorem C10_line_endpoints_truncated_witness :
    decode_roi exLineFloat =
      .ok (3, .lineInts (.val (-5)) (.val 2) (.val 23) (.val 0)) := by
  have hx1 : f32toRat (hdrU32 exLineFloat 18) = some (5 / 2) := by
    have h : hdrU32 exLineFloat 18 = 1075838976 := by decide
    rw [h]
    norm_num [f32toRat, Rat.mkRat_eq_div, show ((22 : Int).toNat = 22) from rfl]
  have hy1 : f32toRat (hdrU32 exLineFloat 22) = some (-5) := by
    have h : hdrU32 exLineFloat 22 = 3231711232 := by decide
    rw [h]
    norm_num [f32toRat, Rat.mkRat_eq_div, show ((21 : Int).toNat = 21) from rfl]
  have hx2 : f32toRat (hdrU32 exLineFloat 26) = some (1 / 2) := by
    have h : hdrU32 exLineFloat 26 = 1056964608 := by decide
    rw [h]
    norm_num [f32toRat, Rat.mkRat_eq_div, show ((24 : Int).toNat = 24) from rfl]
  have hy2 : f32toRat (hdrU32 exLineFloat 30) = some (93 / 4) := by
    have h : hdrU32 exLineFloat 30 = 1102708736 := by decide
    rw [h]
    norm_num [f32toRat, Rat.mkRat_eq_div, show ((19 : Int).toNat = 19) from rfl]
  have ht1 : ratTrunc (-5 : ℚ) = -5 := by norm_num [ratTrunc]
  have ht2 : ratTrunc (5 / 2 : ℚ) = 2 := by norm_num [ratTrunc]
  have ht3 : ratTrunc (93 / 4 : ℚ) = 23 := by norm_num [ratTrunc]
  have ht4 : ratTrunc (1 / 2 : ℚ) = 0 := by norm_num [ratTrunc]
  have h := C10_line_endpoints_truncated exLineFloat (by decide) (by decide)
    (by decide) (by decide) (by decide) (by decide)
    (5 / 2) (-5) (1 / 2) (93 / 4) hx1 hy1 hx2 hy2
    (by rw [ht1]; decide) (by rw [ht2]; decide)
    (by rw [ht3]; decide) (by rw [ht4]; decide)
  rw [h, ht1, ht2, ht3, ht4]

set_option maxRecDepth 8192 in
set_option maxHeartbeats 1600000 in
/-- **C2**: for RoiType in {0 Polygon, 4 Freeline, 7 Freehand} and every
non-empty point sequence with coordinates in the signed 16-bit range (and
a count that fits the 16-bit count field, without which `struct.pack`
refuses to produce a stream), decoding the encoded stream returns the same
RoiType and exactly the original points, in order. -/
theorem C2_poly_roundtrip (t : Nat) (ht : t = 0 ∨ t = 4 ∨ t = 7)
    (points : List (Int × Int)) (hne : points ≠ [])
    (hcount : points.length < 32768)
    (hrange : ∀ q ∈ points, inI16 q.1 ∧ inI16 q.2) :
    ∃ s, encode_roi t points = some s ∧ decode_roi s = .ok (t, .ints points) := by
  cases points with
  | nil => exact absurd rfl hne
  | cons p pr =>
  simp only [List.length_cons] at hcount
  have hmap : (p :: pr).map (fun q => (wrapI32 q.1, wrapI32 q.2)) = p :: pr :=
    map_wrap_id _ hrange
  have hxr : ∀ v ∈ (p :: pr).map Prod.snd, inI16 v := by
    intro v hv
    obtain ⟨q, hq, rfl⟩ := List.mem_map.mp hv
    exact (hrange q hq).2
  have hyr : ∀ v ∈ (p :: pr).map Prod.fst, inI16 v := by
    intro v hv
    obtain ⟨q, hq, rfl⟩ := List.mem_map.mp hv
    exact (hrange q hq).1
  refine ⟨73 :: 111 :: 117 :: 116 :: 0 :: 227 :: t :: 48 ::
      i16hi 0 :: i16lo 0 :: i16hi 0 :: i16lo 0 ::
      i16hi 0 :: i16lo 0 :: i16hi 0 :: i16lo 0 ::
      i16hi (((p :: pr).map Prod.fst).length : Int) ::
      i16lo (((p :: pr).map Prod.fst).length : Int) ::
      u32b0 (f32ofInt 0) :: u32b1 (f32ofInt 0) ::
      u32b2 (f32ofInt 0) :: u32b3 (f32ofInt 0) ::
      u32b0 (f32ofInt 0) :: u32b1 (f32ofInt 0) ::
      u32b2 (f32ofInt 0) :: u32b3 (f32ofInt 0) ::
      u32b0 (f32ofInt 0) :: u32b1 (f32ofInt 0) ::
      u32b2 (f32ofInt 0) :: u32b3 (f32ofInt 0) ::
      u32b0 (f32ofInt 0) :: u32b1 (f32ofInt 0) ::
      u32b2 (f32ofInt 0) :: u32b3 (f32ofInt 0) ::
      0 :: 0 :: 0 :: 0 :: 0 :: 0 :: 0 :: 0 :: 0 :: 0 ::
      0 :: 0 :: 0 :: 0 :: 0 :: 0 :: 0 :: 0 :: 0 :: 0 ::
      0 :: 0 :: 0 :: 0 :: 0 :: 0 :: 0 :: 0 :: 0 :: 0 ::
      (((p :: pr).map Prod.snd).flatMap beI16 ++
       ((p :: pr).map Prod.fst).flatMap beI16), ?_, ?_⟩
  · show (encFields t (((p :: pr).map (fun q => (wrapI32 q.1, wrapI32 q.2))).map Prod.fst)
        (((p :: pr).map (fun q => (wrapI32 q.1, wrapI32 q.2))).map Prod.snd)).bind
        (packRoi t) = some _
    rw [hmap]
    unfold encFields
    rw [if_pos ht]
    show packRoi t ⟨((p :: pr).map Prod.fst).length, 0, 0, 0, 0, 0, 0, 0, 0,
      (p :: pr).map Prod.snd, (p :: pr).map Prod.fst⟩ = some _
    have hz : inI16 (0 : Int) := by decide
    unfold packRoi
    rw [if_pos ⟨by rcases ht with rfl | rfl | rfl <;> decide,
        by simp only [List.length_map, List.length_cons]; omega,
        hz, hz, hz, hz, hxr, hyr⟩]
  · refine Eq.trans (decode_poly_of_fields _ t ht ((p :: pr).map Prod.snd)
      ((p :: pr).map Prod.fst) ?_ ?_ ?_ ?_ ?_ ?_ ?_ ?_ ?_ ?_ ?_ ?_ ?_ ?_ ?_ ?_) ?_
    · simp only [List.length_cons, List.length_append]
      omega
    · rfl
    · rfl
    · rfl
    · rfl
    · rfl
    · rfl
    · rfl
    · unfold hdrI16 hdrU16
      exact toI16_hi_lo _ (by
        unfold inI16
        simp only [List.length_map, List.length_cons]
        omega)
    · simp [hdrI32, hdrU32, hdrByte, toI32]
    · simp [hdrI16, hdrU16, hdrByte, toI16]
    · simp [hdrU16, hdrByte]
    · simp
    · simp
    · exact hxr
    · exact hyr
    · rw [List.zip_map' Prod.fst Prod.snd (p :: pr)]
      simp

/-- Witness for C2 at the spec's Polygon example `[[0,10],[0,5]]`. -/
theorem C2_poly_roundtrip_witness :
    ∃ s, encode_roi 0 [((0 : Int), (10 : Int)), (0, 5)] = some s ∧
      decode_roi s = .ok (0, .ints [(0, 10), (0, 5)]) :=
  C2_poly_roundtrip 0 (Or.inl rfl) [(0, 10), (0, 5)] (by decide) (by decide)
    (by decide)

set_option maxRecDepth 8192 in
set_option maxHeartbeats 1600000 in
/-- **C6**: encoding any non-empty point sequence as Rect and decoding the
stream returns RoiType 1 and exactly the four corners (top,left),
(top,right), (bottom,right), (bottom,left), where top/bottom are the
minimum/maximum row and left/right the minimum/maximum column of the
input points (all within the signed 16-bit range `struct.pack` accepts). -/
theorem C6_rect_corners (p : Int × Int) (pr : List (Int × Int))
    (hrange : ∀ q ∈ p :: pr, inI16 q.1 ∧ inI16 q.2) :
    ∃ s, encode_roi 1 (p :: pr) = some s ∧
      decode_roi s = .ok (1, .ints
        [(listMin p.1 (pr.map Prod.fst), listMin p.2 (pr.map Prod.snd)),
         (listMin p.1 (pr.map Prod.fst), listMax p.2 (pr.map Prod.snd)),
         (listMax p.1 (pr.map Prod.fst), listMax p.2 (pr.map Prod.snd)),
         (listMax p.1 (pr.map Prod.fst), listMin p.2 (pr.map Prod.snd))]) := by
  have hp := hrange p (by simp)
  have hyr : ∀ v ∈ pr.map Prod.fst, inI16 v := by
    intro v hv
    obtain ⟨q, hq, rfl⟩ := List.mem_map.mp hv
    exact (hrange q (by simp [hq])).1
  have hxr : ∀ v ∈ pr.map Prod.snd, inI16 v := by
    intro v hv
    obtain ⟨q, hq, rfl⟩ := List.mem_map.mp hv
    exact (hrange q (by simp [hq])).2
  have hmap : (p :: pr).map (fun q => (wrapI32 q.1, wrapI32 q.2)) = p :: pr :=
    map_wrap_id _ hrange
  refine ⟨73 :: 111 :: 117 :: 116 :: 0 :: 227 :: 1 :: 48 ::
      i16hi (listMin p.1 (pr.map Prod.fst)) :: i16lo (listMin p.1 (pr.map Prod.fst)) ::
      i16hi (listMin p.2 (pr.map Prod.snd)) :: i16lo (listMin p.2 (pr.map Prod.snd)) ::
      i16hi (listMax p.1 (pr.map Prod.fst)) :: i16lo (listMax p.1 (pr.map Prod.fst)) ::
      i16hi (listMax p.2 (pr.map Prod.snd)) :: i16lo (listMax p.2 (pr.map Prod.snd)) ::
      i16hi 0 :: i16lo 0 ::
      u32b0 (f32ofInt 0) :: u32b1 (f32ofInt 0) ::
      u32b2 (f32ofInt 0) :: u32b3 (f32ofInt 0) ::
      u32b0 (f32ofInt 0) :: u32b1 (f32ofInt 0) ::
      u32b2 (f32ofInt 0) :: u32b3 (f32ofInt 0) ::
      u32b0 (f32ofInt 0) :: u32b1 (f32ofInt 0) ::
      u32b2 (f32ofInt 0) :: u32b3 (f32ofInt 0) ::
      u32b0 (f32ofInt 0) :: u32b1 (f32ofInt 0) ::
      u32b2 (f32ofInt 0) :: u32b3 (f32ofInt 0) ::
      0 :: 0 :: 0 :: 0 :: 0 :: 0 :: 0 :: 0 :: 0 :: 0 ::
      0 :: 0 :: 0 :: 0 :: 0 :: 0 :: 0 :: 0 :: 0 :: 0 ::
      0 :: 0 :: 0 :: 0 :: 0 :: 0 :: 0 :: 0 :: 0 :: 0 ::
      ([] : List Nat), ?_, ?_⟩
  · show (encFields 1 (((p :: pr).map (fun q => (wrapI32 q.1, wrapI32 q.2))).map Prod.fst)
        (((p :: pr).map (fun q => (wrapI32 q.1, wrapI32 q.2))).map Prod.snd)).bind
        (packRoi 1) = some _
    rw [hmap]
    simp only [List.map_cons]
    unfold encFields
    rw [if_neg (by decide), if_pos rfl]
    show packRoi 1 ⟨0, listMin p.1 (pr.map Prod.fst), listMin p.2 (pr.map Prod.snd),
      listMax p.1 (pr.map Prod.fst), listMax p.2 (pr.map Prod.snd),
      0, 0, 0, 0, [], []⟩ = some _
    have h0n : (0 : Nat) < 32768 := by decide
    unfold packRoi
    rw [if_pos ⟨by decide, h0n,
        listMin_inI16 p.1 (pr.map Prod.fst) hp.1 hyr,
        listMin_inI16 p.2 (pr.map Prod.snd) hp.2 hxr,
        listMax_inI16 p.1 (pr.map Prod.fst) hp.1 hyr,
        listMax_inI16 p.2 (pr.map Prod.snd) hp.2 hxr,
        by simp, by simp⟩]
    rfl
  · refine decode_rect_of_fields _ _ _ _ _ ?_ ?_ ?_ ?_ ?_ ?_ ?_ ?_ ?_ ?_ ?_ ?_ ?_
    · simp
    · rfl
    · rfl
    · rfl
    · rfl
    · rfl
    · unfold hdrI16 hdrU16
      exact toI16_hi_lo _ (listMin_inI16 p.1 (pr.map Prod.fst) hp.1 hyr)
    · unfold hdrI16 hdrU16
      exact toI16_hi_lo _ (listMin_inI16 p.2 (pr.map Prod.snd) hp.2 hxr)
    · unfold hdrI16 hdrU16
      exact toI16_hi_lo _ (listMax_inI16 p.1 (pr.map Prod.fst) hp.1 hyr)
    · unfold hdrI16 hdrU16
      exact toI16_hi_lo _ (listMax_inI16 p.2 (pr.map Prod.snd) hp.2 hxr)
    · simp [hdrI32, hdrU32, hdrByte, toI32]
    · simp [hdrI16, hdrU16, hdrByte, toI16]
    · simp [hdrU16, hdrByte]

/-- Witness for C6 at the spec's Rect example `[[0,0],[0,10],[10,10],[10,0]]`. -/
theorem C6_rect_corners_witness :
    ∃ s, encode_roi 1 [((0 : Int), (0 : Int)), (0, 10), (10, 10), (10, 0)] = some s ∧
      decode_roi s = .ok (1, .ints [(0, 0), (0, 10), (10, 10), (10, 0)]) := by
  obtain ⟨s, h1, h2⟩ := C6_rect_corners (0, 0) [(0, 10), (10, 10), (10, 0)] (by decide)
  refine ⟨s, h1, ?_⟩
  rw [h2]
  decide

/-- **C7 (amended)**: whenever `encode_roi` produces a stream, its first 8
bytes are the magic `"Iout"`, the big-endian version 227, the RoiType
byte, and then the byte 48 — the ASCII character `"0"`, because the source
packs the literal `b'0'` rather than a zero byte.  (The claim's byte 7 =
0 is wrong.) -/
theorem C7_header_first_bytes (t : Nat) (points : List (Int × Int))
    (s : List Nat) (henc : encode_roi t points = some s) :
    s.take 8 = [73, 111, 117, 116, 0, 227, t, 48] := by
  unfold encode_roi at henc
  cases points with
  | nil => exact Option.noConfusion henc
  | cons p pr =>
      rw [Option.bind_eq_some] at henc
      obtain ⟨f, hf, hpack⟩ := henc
      unfold packRoi at hpack
      split at hpack
      · obtain rfl := Option.some.inj hpack
        rfl
      · exact Option.noConfusion hpack

/-- Witness for the amended C7: the encoded Rect example starts with
magic, version 227, type byte 1 and the byte 48. -/
theorem C7_header_first_bytes_witness :
    ∃ s, encode_roi 1 [((0 : Int), (0 : Int)), (0, 10), (10, 10), (10, 0)] = some s ∧
      s.take 8 = [73, 111, 117, 116, 0, 227, 1, 48] := by
  refine ⟨exRectStream, by decide, ?_⟩
  exact C7_header_first_bytes 1 [(0, 0), (0, 10), (10, 10), (10, 0)]
    exRectStream (by decide)

/-- **C7 counterexample**: byte 7 of an encoded stream is 48 (ASCII "0"),
not the zero byte the claim requires: `encode_roi` packs `b'0'`. -/
theorem C7_counterexample :
    (encode_roi 0 [((0 : Int), (10 : Int)), (0, 5)]).map (fun s => s.getD 7 0) =
      some 48 := by decide

end IJRoi
